import Mathlib

/-!
Shallow embedding of `SectorSearch.py` (ZachDischner/SectorSearch).

Coordinates are rationals, identifiers and grid indices are integers.
The source compares Euclidean distance `sqrt(dx^2 + dy^2)` against the
conflict radius with `<`; since a square root is nonnegative, that test is
equivalent to `0 < r ∧ dx^2 + dy^2 < r^2`, which is decidable over ℚ
(the equivalence over ℝ is proved below as `sqrt_lt_radius_iff`).
The Python `assert` in `count_conflicts` is modelled by returning
`Option`: `none` means the call is rejected before any processing.
-/

namespace SectorSearch

/-- Module-level constant `AIRSPACE_SIZE = 128000` (meters). -/
def AIRSPACE_SIZE : ℕ := 128000

/-- Module-level constant `CONFLICT_RADIUS = 500` (meters). -/
def CONFLICT_RADIUS : ℕ := 500

/-- A `Drone` from the source: an identifier together with `(x, y)` coordinates. -/
structure Drone where
  drone_id : ℕ
  coords : ℚ × ℚ
deriving DecidableEq

/-- Default drone used for in-bounds list indexing (`drones[ax]` in the source
never goes out of range). -/
def dfltDrone : Drone := ⟨0, (0, 0)⟩

/-- Squared Euclidean distance: the sum `Σ (ax1-ax2)^2` that `dist` computes
before taking the square root. -/
def dist2 (p1 p2 : ℚ × ℚ) : ℚ := (p1.1 - p2.1) ^ 2 + (p1.2 - p2.2) ^ 2

/-- The source's conflict test `dist(p1, p2) < conflict_rad`, i.e.
`sqrt s < r` for the nonnegative squared distance `s`, rendered decidably as
`0 < r ∧ s < r^2` (see `sqrt_lt_radius_iff`). -/
def ltRadius (s r : ℚ) : Bool := decide (0 < r ∧ s < r * r)

/-- The raw per-pair pass of `get_conflicts`: for every `ax < bx` index pair,
if the two drones are closer than `conflict_rad`, append both identifiers. -/
def conflictsRaw (drones : List Drone) (conflict_rad : ℚ) : List ℕ :=
  (List.range drones.length).flatMap fun ax =>
    (List.range' (ax + 1) (drones.length - (ax + 1))).flatMap fun bx =>
      let droneA := drones.getD ax dfltDrone
      let droneB := drones.getD bx dfltDrone
      if ltRadius (dist2 droneA.coords droneB.coords) conflict_rad then
        [droneA.drone_id, droneB.drone_id]
      else []

/-- The source's final list comprehension
`[v for ix, v in enumerate(conflicts) if v not in conflicts[ix+1:]]`:
keep an element only if it does not occur again later (dedup keeping the
last occurrence of each value). -/
def dedupKeepLast : List ℕ → List ℕ
  | [] => []
  | v :: rest => if v ∈ rest then dedupKeepLast rest else v :: dedupKeepLast rest

/-- `get_conflicts(drones, conflict_rad)`: the per-cell scanner.  Buckets with
fewer than two drones yield no conflicts; otherwise every unordered pair is
distance-checked and the resulting id list is deduplicated before returning. -/
def get_conflicts (drones : List Drone) (conflict_rad : ℚ) : List ℕ :=
  if drones.length < 2 then []
  else dedupKeepLast (conflictsRaw drones conflict_rad)

/-- Python `range(airspace_size)[::step]` for a positive `step`:
`[0, step, 2*step, ...]` up to `airspace_size - 1`. -/
def pyStride (airspace_size step : ℕ) : List ℕ :=
  if airspace_size = 0 then []
  else (List.range ((airspace_size - 1) / step + 1)).map fun i => i * step

/-- `split_into_sectors(airspace_size, conflict_radius, pad_mult)`:
the boundary list `range(airspace_size)[::conflict_radius*pad_mult] + [airspace_size]`
together with the sector-dictionary key set
`{(x, y) : x, y in range(len(boundaries) + 1)}` (buckets start empty). -/
def split_into_sectors (airspace_size conflict_radius pad_mult : ℕ) :
    List ℕ × List (ℤ × ℤ) :=
  let boundaries := pyStride airspace_size (conflict_radius * pad_mult) ++ [airspace_size]
  (boundaries,
    (List.range (boundaries.length + 1)).flatMap fun (x : ℕ) =>
      (List.range (boundaries.length + 1)).map fun (y : ℕ) => ((x : ℤ), (y : ℤ)))

/-- The index `field` computed inside `map_coordinate`: the first index whose
boundary is strictly greater than `position`, or `len(boundaries) - 1` when no
boundary exceeds it (`StopIteration` branch). -/
def mapField (boundaries : List ℕ) (position : ℚ) : ℕ :=
  let i := boundaries.findIdx fun (pivot : ℕ) => decide (position < (pivot : ℚ))
  if i = boundaries.length then boundaries.length - 1 else i

/-- `map_coordinate(boundaries, position) = (field - 1, field)`; the lower
index can be `-1` for negative positions, so the result lives in ℤ. -/
def map_coordinate (boundaries : List ℕ) (position : ℚ) : ℤ × ℤ :=
  ((mapField boundaries position : ℤ) - 1, (mapField boundaries position : ℤ))

/-- The four 2-D sector keys `[(x, y) for x in xs for y in ys]` that a drone
at `c` is assigned to. -/
def sector_locs (boundaries : List ℕ) (c : ℚ × ℚ) : List (ℤ × ℤ) :=
  let xs := map_coordinate boundaries c.1
  let ys := map_coordinate boundaries c.2
  [(xs.1, ys.1), (xs.1, ys.2), (xs.2, ys.1), (xs.2, ys.2)]

/-- `sectors[sector_loc].append(drone)`: append `d` to the bucket stored under
key `k` of the association list.  CAVEAT: on a key absent from the dictionary
the source raises `KeyError` (this happens exactly for points with a negative
coordinate, whose lower sector index is `-1`), while this model leaves the
map unchanged.  Theorems about completed runs therefore assume coordinates in
`[0, AIRSPACE_SIZE]`, the documented precondition, under which every formed
key is present (proved as `c10_mapper_bounds_and_keys_present`). -/
def dictAppend (m : List ((ℤ × ℤ) × List Drone)) (k : ℤ × ℤ) (d : Drone) :
    List ((ℤ × ℤ) × List Drone) :=
  m.map fun e => if e.1 = k then (e.1, e.2 ++ [d]) else e

/-- The assignment loop of `count_conflicts`: starting from the empty-bucket
dictionary over `keys`, walk the processed drones in order and append each to
every sector key in its `sector_locs`. -/
def assign (keys : List (ℤ × ℤ)) (boundaries : List ℕ) (drones : List Drone) :
    List ((ℤ × ℤ) × List Drone) :=
  drones.foldl
    (fun m d => (sector_locs boundaries d.coords).foldl (fun m' loc => dictAppend m' loc d) m)
    (keys.map fun k => (k, ([] : List Drone)))

/-- Python slice `drones[0:limit]`: a nonnegative limit takes that many
elements from the front; a negative limit counts from the end
(so the default sentinel `-1` takes all but the last element). -/
def pyTake (l : List Drone) (limit : ℤ) : List Drone :=
  if 0 ≤ limit then l.take limit.toNat
  else l.take ((l.length : ℤ) + limit).toNat

set_option linter.unusedVariables false in
/-- `count_conflicts(drones, conflict_radius, debug, limit)`.  The `assert`
(`-1 <= limit <= len(drones)`) is modelled as `none` on failure.  The body:
wrap coordinates into `Drone`s with enumerated ids, call
`split_into_sectors()` WITH ITS DEFAULTS (the source passes no arguments, so
the grid always uses `AIRSPACE_SIZE`, `CONFLICT_RADIUS` and `pad_mult = 10`,
not the `conflict_radius` argument), assign `drones[0:limit]` to sectors,
concatenate `get_conflicts` over every sector bucket, and return the number
of distinct ids (`len(np.unique(conflicts))`).  `debug` only guards prints,
and the `limit != -1` benchmarking branch does not touch the returned value;
neither appears in the count.  The source iterates `sectors.iteritems()` in
unspecified dict order; the distinct-id count is order-independent, so we
iterate keys in construction order. -/
def count_conflicts (drones : List (ℚ × ℚ)) (conflict_radius : ℚ)
    (debug : Bool) (limit : ℤ) : Option ℕ :=
  if -1 ≤ limit ∧ limit ≤ (drones.length : ℤ) then
    let ds : List Drone := drones.enum.map fun p => ⟨p.1, p.2⟩
    let bs := split_into_sectors AIRSPACE_SIZE CONFLICT_RADIUS 10
    let buckets := assign bs.2 bs.1 (pyTake ds limit)
    let conflicts := buckets.flatMap fun e => get_conflicts e.2 conflict_radius
    some conflicts.dedup.length
  else none

/-- Reference count, written from the spec's words: the O(N²) all-pairs check
counting the points whose Euclidean distance to at least one other point is
strictly less than the radius (same strict-less-than comparison). -/
def brute_force_count (points : List (ℚ × ℚ)) (r : ℚ) : ℕ :=
  ((List.range points.length).filter fun i =>
    (List.range points.length).any fun j =>
      j ≠ i && ltRadius (dist2 (points.getD i (0, 0)) (points.getD j (0, 0))) r).length

end SectorSearch


namespace SectorSearch

/-! ### Helper lemmas about the embedding -/

/-- A squared distance is nonnegative. -/
theorem dist2_nonneg (p q : ℚ × ℚ) : 0 ≤ dist2 p q :=
  add_nonneg (sq_nonneg _) (sq_nonneg _)

/-- Faithfulness of `ltRadius`: over the reals, the source's comparison
`sqrt s < r` agrees with the decidable test `0 < r ∧ s < r * r` whenever
`s` is nonnegative (which every squared distance is). -/
theorem sqrt_lt_radius_iff (s r : ℚ) :
    Real.sqrt (s : ℝ) < (r : ℝ) ↔ (0 < r ∧ s < r * r) := by
  constructor
  · intro h
    have hr : (0 : ℝ) < (r : ℝ) := lt_of_le_of_lt (Real.sqrt_nonneg _) h
    have hr' : (0 : ℚ) < r := by exact_mod_cast hr
    refine ⟨hr', ?_⟩
    have := (Real.sqrt_lt' hr).mp h
    have h2 : (s : ℝ) < (r : ℝ) * (r : ℝ) := by rw [← sq]; exact this
    exact_mod_cast h2
  · rintro ⟨hr, hlt⟩
    have hr' : (0 : ℝ) < (r : ℝ) := by exact_mod_cast hr
    refine (Real.sqrt_lt' hr').mpr ?_
    rw [sq]
    exact_mod_cast hlt

/-- With a nonpositive radius the conflict test never fires. -/
theorem ltRadius_eq_false_of_nonpos {r : ℚ} (hr : r ≤ 0) (s : ℚ) :
    ltRadius s r = false := by
  simp only [ltRadius, decide_eq_false_iff_not, not_and]
  intro h
  exact absurd h (not_lt.mpr hr)

/-- With a nonpositive radius no pair is recorded at all. -/
theorem conflictsRaw_eq_nil_of_nonpos {r : ℚ} (hr : r ≤ 0) (ds : List Drone) :
    conflictsRaw ds r = [] := by
  unfold conflictsRaw
  apply List.flatMap_eq_nil_iff.mpr
  intro ax _
  apply List.flatMap_eq_nil_iff.mpr
  intro bx _
  simp [ltRadius_eq_false_of_nonpos hr]

/-- With a nonpositive radius the scanner returns no conflicts. -/
theorem get_conflicts_eq_nil_of_nonpos {r : ℚ} (hr : r ≤ 0) (ds : List Drone) :
    get_conflicts ds r = [] := by
  unfold get_conflicts
  rw [conflictsRaw_eq_nil_of_nonpos hr]
  cases h : decide (ds.length < 2) <;> simp_all [dedupKeepLast]

/-- `dedupKeepLast` does not change the set of members. -/
theorem mem_dedupKeepLast (a : ℕ) : ∀ l : List ℕ, a ∈ dedupKeepLast l ↔ a ∈ l := by
  intro l
  induction l with
  | nil => simp [dedupKeepLast]
  | cons v rest ih =>
      by_cases hv : v ∈ rest
      · simp only [dedupKeepLast, if_pos hv, ih, List.mem_cons]
        constructor
        · exact Or.inr
        · rintro (h | h)
          · exact h ▸ hv
          · exact h
      · simp only [dedupKeepLast, if_neg hv, List.mem_cons, ih]

/-- `dedupKeepLast` has no duplicates. -/
theorem nodup_dedupKeepLast : ∀ l : List ℕ, (dedupKeepLast l).Nodup := by
  intro l
  induction l with
  | nil => simp [dedupKeepLast]
  | cons v rest ih =>
      by_cases hv : v ∈ rest
      · simpa [dedupKeepLast, if_pos hv] using ih
      · simp only [dedupKeepLast, if_neg hv]
        exact List.Nodup.cons (fun h => hv ((mem_dedupKeepLast v rest).mp h)) ih

end SectorSearch

namespace SectorSearch

/-! ### Claim theorems -/

/-- C9: `count_conflicts` is deterministic and the `debug` flag does not
affect the returned count — in the source `debug` only guards `print`
statements and the timing variables never reach `num_conflicts`. -/
theorem c9_deterministic_debug_independent (pts : List (ℚ × ℚ)) (r : ℚ)
    (lim : ℤ) (d1 d2 : Bool) :
    count_conflicts pts r d1 lim = count_conflicts pts r d2 lim := rfl

set_option maxRecDepth 200000 in
/-- C1 (code bug): the primary brute-force equivalence fails on the code.
With the default sentinel `limit = -1`, the slice `drones[0:limit]` drops the
last drone before sector assignment, so two coincident points yield a count
of 0 while the O(N²) reference counts both (a second, independent defect:
`split_into_sectors()` is called with module defaults, ignoring the passed
radius, so radii above the 5000 m cell width also break equivalence). -/
theorem c1_brute_force_equivalence_fails :
    count_conflicts [(3, 3), (3, 3)] 1 false (-1) = some 0 ∧
      brute_force_count [(3, 3), (3, 3)] 1 = 2 :=
  ⟨of_decide_eq_true (by with_unfolding_all rfl),
   of_decide_eq_true (by with_unfolding_all rfl)⟩

set_option maxRecDepth 200000 in
/-- C2 (code bug): concrete scenario B.  Points (0,0) and (2,2) with radius 4
and no explicit limit: the claim (and the spec) say 2, but the code returns 0
because the default `limit = -1` slices the second point away before it is
assigned to any sector. -/
theorem c2_scenario_b_returns_zero :
    count_conflicts [(0, 0), (2, 2)] 4 false (-1) = some 0 :=
  of_decide_eq_true (by with_unfolding_all rfl)

set_option maxRecDepth 200000 in
/-- C3 (code bug): zero and one point do return 0, but n identical points do
NOT return n under the default limit: for two coincident points the code
returns 0 instead of the claimed 2 (the sentinel slice `drones[0:-1]` keeps
only the first point). -/
theorem c3_degenerate_inputs :
    count_conflicts ([] : List (ℚ × ℚ)) 1 false (-1) = some 0 ∧
      count_conflicts [(1, 1)] 1 false (-1) = some 0 ∧
      count_conflicts [(5, 5), (5, 5)] 1 false (-1) = some 0 :=
  ⟨of_decide_eq_true (by with_unfolding_all rfl),
   of_decide_eq_true (by with_unfolding_all rfl),
   of_decide_eq_true (by with_unfolding_all rfl)⟩

set_option maxRecDepth 200000 in
/-- C6 (code bug): the limit is validated (`-2` and `3 > len` are rejected)
and an in-range limit processes exactly that prefix (`limit = 1` sees one
point, `limit = 2` sees both coincident points and counts 2), but the
unset/sentinel `limit = -1` processes only n−1 points, not all n: it returns
0 where the claim requires 2. -/
theorem c6_limit_validation_and_prefix :
    count_conflicts [(0, 0), (0, 0)] 1 false (-2) = none ∧
      count_conflicts [(0, 0), (0, 0)] 1 false 3 = none ∧
      count_conflicts [(0, 0), (0, 0)] 1 false 1 = some 0 ∧
      count_conflicts [(0, 0), (0, 0)] 1 false 2 = some 2 ∧
      count_conflicts [(0, 0), (0, 0)] 1 false (-1) = some 0 :=
  ⟨of_decide_eq_true (by with_unfolding_all rfl),
   of_decide_eq_true (by with_unfolding_all rfl),
   of_decide_eq_true (by with_unfolding_all rfl),
   of_decide_eq_true (by with_unfolding_all rfl),
   of_decide_eq_true (by with_unfolding_all rfl)⟩

set_option maxRecDepth 200000 in
/-- C5 (counterexample): a call with a non-positive `conflict_radius` is NOT
rejected — `count_conflicts` only asserts on `limit`, so the call completes
normally and produces a count (`some`, not `none`). -/
theorem c5_nonpositive_radius_not_rejected :
    count_conflicts [(0, 0), (0, 0)] (-1) false 2 = some 0 :=
  of_decide_eq_true (by with_unfolding_all rfl)

set_option linter.unusedVariables false in
/-- C5 (amended): the code validates only the limit; for points inside the
documented `[0, AIRSPACE_SIZE]` coordinate range (outside it the source
instead dies with `KeyError` on a missing sector key, see `dictAppend`),
a call with a non-positive conflict radius and a limit the assert accepts
completes and returns a count of 0, because `dist < r` can never hold for
`r ≤ 0`. -/
theorem c5_amended_nonpositive_radius_completes (pts : List (ℚ × ℚ)) (r : ℚ)
    (d : Bool) (lim : ℤ) (hr : r ≤ 0) (h1 : -1 ≤ lim)
    (h2 : lim ≤ (pts.length : ℤ))
    (hcoords : ∀ p ∈ pts, 0 ≤ p.1 ∧ p.1 ≤ (AIRSPACE_SIZE : ℚ) ∧
      0 ≤ p.2 ∧ p.2 ≤ (AIRSPACE_SIZE : ℚ)) :
    count_conflicts pts r d lim = some 0 := by
  unfold count_conflicts
  rw [if_pos ⟨h1, h2⟩]
  have hnil :
      (assign (split_into_sectors AIRSPACE_SIZE CONFLICT_RADIUS 10).2
            (split_into_sectors AIRSPACE_SIZE CONFLICT_RADIUS 10).1
            (pyTake (pts.enum.map fun p => ⟨p.1, p.2⟩) lim)).flatMap
          (fun e => get_conflicts e.2 r) = [] :=
    List.flatMap_eq_nil_iff.mpr fun e _ => get_conflicts_eq_nil_of_nonpos hr e.2
  simp only [hnil, List.dedup_nil, List.length_nil]

/-- Witness for `c5_amended_nonpositive_radius_completes` at a concrete
input. -/
theorem c5_amended_nonpositive_radius_completes_witness :
    count_conflicts [((0 : ℚ), (0 : ℚ))] (-1) false (-1) = some 0 :=
  c5_amended_nonpositive_radius_completes [((0 : ℚ), (0 : ℚ))] (-1) false (-1)
    (by norm_num) (by norm_num) (by norm_num)
    (by intro p hp; rw [List.mem_singleton] at hp; subst hp; norm_num [AIRSPACE_SIZE])

end SectorSearch

namespace SectorSearch

/-- A bucket with fewer than two drones records no raw pairs either. -/
theorem conflictsRaw_of_short (ds : List Drone) (r : ℚ) (h : ds.length < 2) :
    conflictsRaw ds r = [] := by
  match ds with
  | [] => rfl
  | [d] => rfl
  | a :: b :: t => simp only [List.length_cons] at h; omega

set_option maxRecDepth 10000 in
/-- C7 (counterexample): three mutually conflicting drones in one bucket.
Drone 0 participates in two conflicting pairs, and the raw pass records it
twice, but `get_conflicts` deduplicates before returning, so its output
contains identifier 0 once, not twice — the claim's "once per confirmed
conflicting pair" is false of the code. -/
theorem c7_counterexample_scanner_already_dedups :
    conflictsRaw [⟨0, (0, 0)⟩, ⟨1, (0, 0)⟩, ⟨2, (0, 0)⟩] 1 = [0, 1, 0, 2, 1, 2] ∧
      get_conflicts [⟨0, (0, 0)⟩, ⟨1, (0, 0)⟩, ⟨2, (0, 0)⟩] 1 = [0, 1, 2] ∧
      (get_conflicts [⟨0, (0, 0)⟩, ⟨1, (0, 0)⟩, ⟨2, (0, 0)⟩] 1).count 0 = 1 :=
  ⟨of_decide_eq_true (by with_unfolding_all rfl),
   of_decide_eq_true (by with_unfolding_all rfl),
   of_decide_eq_true (by with_unfolding_all rfl)⟩

/-- C7 (amended): the per-cell scanner deduplicates its own output — each
identifier appears at most once per cell, and it appears exactly when it
participates in at least one confirmed conflicting pair within the cell
(i.e. when the raw per-pair pass records it); only cross-cell duplicates
remain for the aggregator. -/
theorem c7_amended_scanner_output (ds : List Drone) (r : ℚ) :
    (get_conflicts ds r).Nodup ∧
      ∀ i : ℕ, i ∈ get_conflicts ds r ↔ i ∈ conflictsRaw ds r := by
  by_cases h : ds.length < 2
  · rw [get_conflicts, if_pos h, conflictsRaw_of_short ds r h]
    simp
  · rw [get_conflicts, if_neg h]
    exact ⟨nodup_dedupKeepLast _, fun i => mem_dedupKeepLast i _⟩

/-- Evaluation of `get_conflicts` on a two-drone bucket: both ids are
returned when the pair is in conflict (deduplicated if the ids coincide),
nothing otherwise. -/
theorem get_conflicts_pair (A B : Drone) (r : ℚ) :
    get_conflicts [A, B] r =
      if ltRadius (dist2 A.coords B.coords) r then
        if A.drone_id = B.drone_id then [B.drone_id] else [A.drone_id, B.drone_id]
      else [] := by
  have hraw : conflictsRaw [A, B] r =
      ((if ltRadius (dist2 A.coords B.coords) r then
          [A.drone_id, B.drone_id] else []) ++ []) ++ ([] ++ []) := rfl
  rw [get_conflicts, if_neg (by simp)]
  rw [hraw]
  cases hc : ltRadius (dist2 A.coords B.coords) r
  · simp [dedupKeepLast]
  · by_cases he : A.drone_id = B.drone_id <;>
      simp [dedupKeepLast, he]

set_option linter.unusedVariables false in
/-- C4: the conflict comparison is strictly less-than.  For any two distinct
drones, if their Euclidean distance equals the radius exactly they are not
reported (`get_conflicts` returns no conflicts for the pair), while any
distance strictly below the radius reports both. -/
theorem c4_strict_inequality (idA idB : ℕ) (pA pB : ℚ × ℚ) (r : ℚ)
    (hne : idA ≠ idB) (hr : 0 < r) :
    (Real.sqrt ((dist2 pA pB : ℚ) : ℝ) = (r : ℝ) →
        get_conflicts [⟨idA, pA⟩, ⟨idB, pB⟩] r = []) ∧
    (Real.sqrt ((dist2 pA pB : ℚ) : ℝ) < (r : ℝ) →
        get_conflicts [⟨idA, pA⟩, ⟨idB, pB⟩] r = [idA, idB]) := by
  constructor
  · intro h
    have h0 : (0 : ℝ) ≤ ((dist2 pA pB : ℚ) : ℝ) := by
      exact_mod_cast dist2_nonneg pA pB
    have hsq : ((dist2 pA pB : ℚ) : ℝ) = (r : ℝ) * (r : ℝ) := by
      have h2 := Real.sq_sqrt h0
      rw [h] at h2
      rw [← h2]; ring
    have hs : dist2 pA pB = r * r := by exact_mod_cast hsq
    have hfalse : ltRadius (dist2 pA pB) r = false := by
      simp [ltRadius, hs]
    rw [get_conflicts_pair]
    simp [hfalse]
  · intro h
    have hand := (sqrt_lt_radius_iff (dist2 pA pB) r).mp h
    have htrue : ltRadius (dist2 pA pB) r = true := by
      simp [ltRadius, hand.1, hand.2]
    rw [get_conflicts_pair]
    simp [htrue, hne]

/-- Witness for `c4_strict_inequality`: (0,0)–(3,4) at distance exactly 5 is
not reported; (0,0)–(0,3) at distance 3 < 5 reports both drones. -/
theorem c4_strict_inequality_witness :
    get_conflicts [⟨0, ((0 : ℚ), (0 : ℚ))⟩, ⟨1, (3, 4)⟩] 5 = [] ∧
      get_conflicts [⟨0, ((0 : ℚ), (0 : ℚ))⟩, ⟨1, (0, 3)⟩] 5 = [0, 1] := by
  constructor
  · refine (c4_strict_inequality 0 1 (0, 0) (3, 4) 5 (by norm_num) (by norm_num)).1 ?_
    have hd : dist2 ((0 : ℚ), (0 : ℚ)) ((3 : ℚ), (4 : ℚ)) = 25 := by
      norm_num [dist2]
    rw [hd, show ((25 : ℚ) : ℝ) = (5 : ℝ) ^ 2 by norm_num,
      Real.sqrt_sq (by norm_num : (0 : ℝ) ≤ 5)]
    norm_num
  · refine (c4_strict_inequality 0 1 (0, 0) (0, 3) 5 (by norm_num) (by norm_num)).2 ?_
    have hd : dist2 ((0 : ℚ), (0 : ℚ)) ((0 : ℚ), (3 : ℚ)) = 9 := by
      norm_num [dist2]
    rw [hd, show ((9 : ℚ) : ℝ) = (3 : ℝ) ^ 2 by norm_num,
      Real.sqrt_sq (by norm_num : (0 : ℝ) ≤ 3)]
    norm_num

end SectorSearch

namespace SectorSearch

/-- Length of the Python stride `range(S)[::k]` for positive `S`. -/
theorem pyStride_length (S k : ℕ) (hS : 0 < S) :
    (pyStride S k).length = (S - 1) / k + 1 := by
  unfold pyStride
  rw [if_neg (Nat.pos_iff_ne_zero.mp hS)]
  simp

/-- Elements of the Python stride are the successive multiples of `k`. -/
theorem pyStride_getD (S k : ℕ) (hS : 0 < S) (i : ℕ) (hi : i ≤ (S - 1) / k) :
    (pyStride S k).getD i 0 = i * k := by
  unfold pyStride
  rw [if_neg (Nat.pos_iff_ne_zero.mp hS)]
  rw [List.getD_eq_getElem?_getD, List.getElem?_map,
    List.getElem?_range (by omega : i < (S - 1) / k + 1)]
  rfl

/-- The boundary component of `split_into_sectors` is the stride plus the
appended airspace size. -/
theorem split_boundaries_eq (S r m : ℕ) :
    (split_into_sectors S r m).1 = pyStride S (r * m) ++ [S] := rfl

/-- Length of the boundary list. -/
theorem split_boundaries_length (S r m : ℕ) (hS : 0 < S) :
    (split_into_sectors S r m).1.length = (S - 1) / (r * m) + 2 := by
  rw [split_boundaries_eq, List.length_append, pyStride_length S _ hS]
  simp

/-- Index-wise description of the boundary list: multiples of the cell width
`r*m`, capped by the final entry `S`. -/
theorem split_boundaries_getD (S r m : ℕ) (hS : 0 < S) (i : ℕ)
    (hi : i ≤ (S - 1) / (r * m) + 1) :
    (split_into_sectors S r m).1.getD i 0 =
      if i ≤ (S - 1) / (r * m) then i * (r * m) else S := by
  rw [split_boundaries_eq]
  by_cases h : i ≤ (S - 1) / (r * m)
  · rw [if_pos h, List.getD_append _ _ _ _ (by rw [pyStride_length S _ hS]; omega)]
    exact pyStride_getD S _ hS i h
  · rw [if_neg h, List.getD_append_right _ _ _ _ (by rw [pyStride_length S _ hS]; omega)]
    have hz : i - (pyStride S (r * m)).length = 0 := by
      rw [pyStride_length S _ hS]; omega
    rw [hz]
    rfl

/-- The boundary list starts with 0. -/
theorem split_boundaries_first (S r m : ℕ) (hS : 0 < S) :
    (split_into_sectors S r m).1.getD 0 0 = 0 := by
  rw [split_boundaries_getD S r m hS 0 (Nat.zero_le _), if_pos (Nat.zero_le _)]
  simp

/-- C8: for positive airspace size, radius and padding multiplier, the
boundary sequence starts at 0, ends at the airspace size, is strictly
increasing, consecutive boundaries are spaced exactly `r*m` apart except for
the final segment, and no gap ever exceeds `r*m`. -/
theorem c8_boundary_sequence_invariants (S r m : ℕ)
    (hS : 0 < S) (hr : 0 < r) (hm : 0 < m) :
    (split_into_sectors S r m).1.getD 0 0 = 0 ∧
    (split_into_sectors S r m).1.getLast? = some S ∧
    (split_into_sectors S r m).1.Chain' (· < ·) ∧
    (∀ i, i + 2 < (split_into_sectors S r m).1.length →
        (split_into_sectors S r m).1.getD (i + 1) 0 =
          (split_into_sectors S r m).1.getD i 0 + r * m) ∧
    (∀ i, i + 1 < (split_into_sectors S r m).1.length →
        (split_into_sectors S r m).1.getD (i + 1) 0 ≤
          (split_into_sectors S r m).1.getD i 0 + r * m) := by
  have hk : 0 < r * m := Nat.mul_pos hr hm
  have hlen := split_boundaries_length S r m hS
  have hdm := Nat.div_add_mod (S - 1) (r * m)
  have hmod : (S - 1) % (r * m) < r * m := Nat.mod_lt _ hk
  have hcomm : (r * m) * ((S - 1) / (r * m)) = ((S - 1) / (r * m)) * (r * m) :=
    Nat.mul_comm _ _
  have hqk : ((S - 1) / (r * m)) * (r * m) ≤ S - 1 := by omega
  have hSk : S ≤ ((S - 1) / (r * m)) * (r * m) + r * m := by omega
  have hval : ∀ i, i ≤ (S - 1) / (r * m) →
      (split_into_sectors S r m).1.getD i 0 = i * (r * m) := by
    intro i hi
    rw [split_boundaries_getD S r m hS i (by omega), if_pos hi]
  have hvalS :
      (split_into_sectors S r m).1.getD ((S - 1) / (r * m) + 1) 0 = S := by
    rw [split_boundaries_getD S r m hS _ (le_refl _),
      if_neg (show ¬ ((S - 1) / (r * m) + 1 ≤ (S - 1) / (r * m)) by omega)]
  refine ⟨split_boundaries_first S r m hS, ?_, ?_, ?_, ?_⟩
  · rw [split_boundaries_eq]
    exact List.getLast?_concat _
  · rw [List.chain'_iff_get]
    intro i hi
    rw [hlen] at hi
    rw [List.get_eq_getElem, List.get_eq_getElem,
      ← List.getD_eq_getElem _ 0, ← List.getD_eq_getElem _ 0]
    rcases Nat.lt_or_ge i ((S - 1) / (r * m)) with h | h
    · rw [hval i (by omega), hval (i + 1) (by omega), Nat.succ_mul]
      omega
    · have hiq : i = (S - 1) / (r * m) := by omega
      subst hiq
      rw [hval _ (le_refl _), hvalS]
      omega
  · intro i hi
    rw [hlen] at hi
    rw [hval i (by omega), hval (i + 1) (by omega), Nat.succ_mul]
  · intro i hi
    rw [hlen] at hi
    rcases Nat.lt_or_ge (i + 1) ((S - 1) / (r * m) + 1) with h | h
    · rw [hval i (by omega), hval (i + 1) (by omega), Nat.succ_mul]
    · have hiq : i = (S - 1) / (r * m) := by omega
      subst hiq
      rw [hval _ (le_refl _), hvalS]
      omega

/-- Witness for `c8_boundary_sequence_invariants` at the documented example
`split_into_sectors(20, 4, 2)` whose boundaries are `[0, 8, 16, 20]`. -/
theorem c8_boundary_sequence_invariants_witness :
    (split_into_sectors 20 4 2).1.getD 0 0 = 0 ∧
    (split_into_sectors 20 4 2).1.getLast? = some 20 ∧
    (split_into_sectors 20 4 2).1.Chain' (· < ·) ∧
    (∀ i, i + 2 < (split_into_sectors 20 4 2).1.length →
        (split_into_sectors 20 4 2).1.getD (i + 1) 0 =
          (split_into_sectors 20 4 2).1.getD i 0 + 4 * 2) ∧
    (∀ i, i + 1 < (split_into_sectors 20 4 2).1.length →
        (split_into_sectors 20 4 2).1.getD (i + 1) 0 ≤
          (split_into_sectors 20 4 2).1.getD i 0 + 4 * 2) :=
  c8_boundary_sequence_invariants 20 4 2 (by norm_num) (by norm_num) (by norm_num)

end SectorSearch

namespace SectorSearch

/-- For a boundary list starting at 0 with at least two entries and a
nonnegative position, `mapField` is at least 1 (so `lo = field - 1 ≥ 0`) and
at most `len(boundaries) - 1` (the `StopIteration` clamp). -/
theorem mapField_bounds (bds : List ℕ) (c : ℚ) (h0 : bds.getD 0 0 = 0)
    (hlen : 2 ≤ bds.length) (hc : 0 ≤ c) :
    1 ≤ mapField bds c ∧ mapField bds c ≤ bds.length - 1 := by
  match bds, hlen with
  | b0 :: rest, hl =>
    have hb0 : b0 = 0 := by simpa using h0
    have hp : (decide (c < ((b0 : ℕ) : ℚ))) = false := by
      subst hb0
      simp only [Nat.cast_zero, decide_eq_false_iff_not, not_lt]
      exact hc
    have hidx : (b0 :: rest).findIdx (fun (pivot : ℕ) => decide (c < (pivot : ℚ)))
        = rest.findIdx (fun (pivot : ℕ) => decide (c < (pivot : ℚ))) + 1 := by
      rw [List.findIdx_cons]
      simp only [hp, Bool.cond_false]
    have hle : rest.findIdx (fun (pivot : ℕ) => decide (c < (pivot : ℚ))) ≤ rest.length :=
      @List.findIdx_le_length ℕ (fun (pivot : ℕ) => decide (c < (pivot : ℚ))) rest
    unfold mapField
    simp only [hidx, List.length_cons]
    by_cases he :
        rest.findIdx (fun (pivot : ℕ) => decide (c < (pivot : ℚ))) + 1 = rest.length + 1
    · rw [if_pos he]
      simp only [List.length_cons] at hl
      omega
    · rw [if_neg he]
      omega

/-- Membership in the sector-dictionary key set built by
`split_into_sectors`: exactly the integer pairs with both components in
`[0, len(boundaries)]`. -/
theorem mem_sector_keys (S r m : ℕ) (a b : ℤ) :
    (a, b) ∈ (split_into_sectors S r m).2 ↔
      0 ≤ a ∧ a < ((split_into_sectors S r m).1.length : ℤ) + 1 ∧
        0 ≤ b ∧ b < ((split_into_sectors S r m).1.length : ℤ) + 1 := by
  show (a, b) ∈
      (List.range ((split_into_sectors S r m).1.length + 1)).flatMap
        (fun (x : ℕ) => (List.range ((split_into_sectors S r m).1.length + 1)).map
          fun (y : ℕ) => ((x : ℤ), (y : ℤ))) ↔ _
  simp only [List.mem_flatMap, List.mem_map, List.mem_range, Prod.mk.injEq]
  constructor
  · rintro ⟨x, hx, y, hy, hxa, hyb⟩
    omega
  · rintro ⟨ha0, haL, hb0, hbL⟩
    exact ⟨a.toNat, by omega, b.toNat, by omega, by omega, by omega⟩

set_option linter.unusedVariables false in
/-- C10: for in-range coordinates, `map_coordinate` over the boundaries of
`split_into_sectors` returns `(lo, hi)` with `hi = lo + 1`, `0 ≤ lo` and
`hi ≤ len(boundaries) - 1`, and every 2-D key the assignment loop forms from
two such pairs is already present in the sector dictionary's key set, so
inserting a point never hits a missing cell key. -/
theorem c10_mapper_bounds_and_keys_present (S r m : ℕ) (x y : ℚ)
    (hS : 0 < S) (hr : 0 < r) (hm : 0 < m)
    (hx0 : 0 ≤ x) (hxS : x ≤ (S : ℚ)) (hy0 : 0 ≤ y) (hyS : y ≤ (S : ℚ)) :
    (map_coordinate (split_into_sectors S r m).1 x).2 =
        (map_coordinate (split_into_sectors S r m).1 x).1 + 1 ∧
      0 ≤ (map_coordinate (split_into_sectors S r m).1 x).1 ∧
      (map_coordinate (split_into_sectors S r m).1 x).2 ≤
        ((split_into_sectors S r m).1.length : ℤ) - 1 ∧
      ∀ kk ∈ sector_locs (split_into_sectors S r m).1 (x, y),
        kk ∈ (split_into_sectors S r m).2 := by
  have hlen := split_boundaries_length S r m hS
  have hlen2 : 2 ≤ (split_into_sectors S r m).1.length := by
    rw [hlen]
    exact Nat.le_add_left _ _
  have h00 : (split_into_sectors S r m).1.getD 0 0 = 0 :=
    split_boundaries_first S r m hS
  have hx := mapField_bounds (split_into_sectors S r m).1 x h00 hlen2 hx0
  have hy := mapField_bounds (split_into_sectors S r m).1 y h00 hlen2 hy0
  refine ⟨by simp [map_coordinate], ?_, ?_, ?_⟩
  · simp only [map_coordinate]
    omega
  · simp only [map_coordinate]
    omega
  · intro kk hkk
    simp only [sector_locs, map_coordinate, List.mem_cons, List.mem_singleton,
      List.not_mem_nil, or_false] at hkk
    have hmem : ∀ a b : ℤ, 0 ≤ a →
        a < ((split_into_sectors S r m).1.length : ℤ) + 1 →
        0 ≤ b → b < ((split_into_sectors S r m).1.length : ℤ) + 1 →
        (a, b) ∈ (split_into_sectors S r m).2 :=
      fun a b h1 h2 h3 h4 => (mem_sector_keys S r m a b).mpr ⟨h1, h2, h3, h4⟩
    rcases hkk with h | h | h | h <;> rw [h] <;> exact hmem _ _ (by omega) (by omega) (by omega) (by omega)

/-- Witness for `c10_mapper_bounds_and_keys_present` with airspace 20,
radius 4, padding 2 and the point (17, 3). -/
theorem c10_mapper_bounds_and_keys_present_witness :
    (map_coordinate (split_into_sectors 20 4 2).1 17).2 =
        (map_coordinate (split_into_sectors 20 4 2).1 17).1 + 1 ∧
      0 ≤ (map_coordinate (split_into_sectors 20 4 2).1 17).1 ∧
      (map_coordinate (split_into_sectors 20 4 2).1 17).2 ≤
        ((split_into_sectors 20 4 2).1.length : ℤ) - 1 ∧
      ∀ kk ∈ sector_locs (split_into_sectors 20 4 2).1 (17, 3),
        kk ∈ (split_into_sectors 20 4 2).2 :=
  c10_mapper_bounds_and_keys_present 20 4 2 17 3 (by norm_num) (by norm_num)
    (by norm_num) (by norm_num) (by norm_num) (by norm_num) (by norm_num)

end SectorSearch
